import Mathlib

/-!
Verification development for the argo-messaging API service.

The repository ships the server bootstrap and its HTTP-handler test suite;
the handlers themselves are collaborator code described by the natural
language specification.  Every definition below whose doc comment begins
with "Modelled from the spec:" is a shallow embedding of such a handler,
written from the specification text and checked against the concrete
expectations recorded in the test suite.
-/

namespace ArgoMsg

/-- Service configuration: the push toggle and the push-worker token
(section 6.4 of the spec). -/
structure Config where
  pushEnabled : Bool
  pushWorkerToken : String
deriving DecidableEq

/-- A user row: uuid, name, API token and service roles (section 3). -/
structure QUser where
  uuid : String
  name : String
  token : String
  serviceRoles : List String
deriving DecidableEq

/-- A subscription row as persisted by the store (section 3):
push endpoint, retry policy, ack deadline, offset bookkeeping and the
free-text push status.  The pending-ack timestamp is a UTC second count,
none standing for the empty column. -/
structure QSub where
  projectUUID : String
  name : String
  topic : String
  pushEndpoint : String
  retPolicy : String
  retPeriod : Nat
  ack : Nat
  nextOffset : Nat
  pendingAck : Option Nat
  pushStatus : String
deriving DecidableEq

/-- The metadata store slice the modelled handlers touch: topics as
(projectUUID, name) pairs, subscription rows, user rows and per
subscription ACLs keyed by (projectUUID, subscription name). -/
structure Store where
  topics : List (String × String)
  subs : List QSub
  users : List QUser
  subACLs : List ((String × String) × List String)
deriving DecidableEq

/-- Token resolution: first user whose token matches (section 4.1 step 1). -/
def getUserFromToken (users : List QUser) (tok : String) : Option QUser :=
  users.find? (fun u => u.token == tok)

/-- Store lookup of one subscription by project uuid and name. -/
def queryOneSub (subs : List QSub) (puuid name : String) : Option QSub :=
  subs.find? (fun s => s.projectUUID == puuid && s.name == name)

/-- Whether a (projectUUID, topic name) pair exists in the store. -/
def hasTopic (topics : List (String × String)) (puuid name : String) : Bool :=
  topics.contains (puuid, name)

/-- Replace the subscription row with the given identity. -/
def updateSub (subs : List QSub) (puuid name : String) (s2 : QSub) : List QSub :=
  subs.map (fun s => if s.projectUUID == puuid && s.name == name then s2 else s)

/-- Append a user uuid to the ACL entry of a key, creating the entry if
missing (the push-worker uuid is appended on activation, section 4.4). -/
def aclAppend (acls : List ((String × String) × List String))
    (key : String × String) (u : String) : List ((String × String) × List String) :=
  if (acls.find? (fun a => a.1 == key)).isSome then
    acls.map (fun a => if a.1 == key then (a.1, a.2 ++ [u]) else a)
  else
    acls ++ [(key, [u])]

/-- Remove a user uuid from the ACL entry of a key (deactivation,
section 4.4). -/
def aclRemove (acls : List ((String × String) × List String))
    (key : String × String) (u : String) : List ((String × String) × List String) :=
  acls.map (fun a => if a.1 == key then (a.1, a.2.filter (fun x => x ≠ u)) else a)

/-- Drop the ACL entry of a key altogether (subscription deletion). -/
def aclDrop (acls : List ((String × String) × List String))
    (key : String × String) : List ((String × String) × List String) :=
  acls.filter (fun a => a.1 ≠ key)

/-- The error envelope of section 6.2: HTTP code, UPPER-SNAKE status
string, human message. -/
structure ErrInfo where
  code : Nat
  status : String
  message : String
deriving DecidableEq

/-- Successful response bodies the claims inspect: the empty body, the
empty JSON object, a one-field message object, or a rendered
subscription resource. -/
inductive Body where
  | empty : Body
  | emptyObj : Body
  | jsonMsg : String → Body
  | subView : QSub → Body
deriving DecidableEq

/-- A handler outcome: success with an HTTP code and body, or an error
envelope. -/
inductive ApiOut where
  | ok : Nat → Body → ApiOut
  | fail : ErrInfo → ApiOut
deriving DecidableEq

/-- The HTTP code of an outcome. -/
def ApiOut.code : ApiOut → Nat
  | .ok c _ => c
  | .fail e => e.code

/-- Full resource path of a subscription, as used inside status texts. -/
def subFullName (pName sName : String) : String :=
  "/projects/" ++ pName ++ "/subscriptions/" ++ sName

/-- Status text persisted when CreateSubscription activates push
(as recorded by the test suite: no Success-prefix on this path). -/
def activatedCreateText (pName sName : String) : String :=
  "Subscription " ++ subFullName pName sName ++ " activated"

/-- Status text persisted when ModifyPushConfig activates push
(section 4.4, with the Success-prefix). -/
def activatedModText (pName sName : String) : String :=
  "Success: Subscription " ++ subFullName pName sName ++ " activated"

/-- Status text when the remote push server reports the subscription as
already active (section 4.4). -/
def alreadyActiveText (pName sName : String) : String :=
  "Subscription " ++ subFullName pName sName ++ " is already active"

/-- Status text on successful deactivation (section 4.4). -/
def deactivatedText (pName sName : String) : String :=
  "Subscription " ++ subFullName pName sName ++ " deactivated"

/-- Status text when the remote push server reports the subscription as
not active on deactivation (section 4.4). -/
def notActiveText (pName sName : String) : String :=
  "Subscription " ++ subFullName pName sName ++ " is not active"

/-- Modelled from the spec: the URL guard of section 4.4 and testable
property 8 (the Go helper isValidHTTPS, absent from the sources).  A
string is accepted exactly when it begins with the https scheme followed
by the hierarchical marker, and its remainder is a syntactically valid
URL tail, approximated here as containing only visible non-blank
characters. -/
def validURLTail (cs : List Char) : Bool :=
  cs.all (fun c => 32 < c.toNat && c.toNat < 127)

/-- Modelled from the spec: acceptance of push endpoints, see
validURLTail. -/
def isValidHTTPS (s : String) : Bool :=
  "https://".data.isPrefixOf s.data && validURLTail (s.data.drop 8)

/-- The push block of a request body; an empty endpoint stands for an
absent or empty pushConfig object. -/
structure PushCfgReq where
  pushEndpoint : String
  retType : Option String
  retPeriod : Option Nat
deriving DecidableEq

/-- Default retry policy type (section 4.4). -/
def defaultRetPolicy : String := "linear"

/-- Default retry period in milliseconds (section 4.4). -/
def defaultRetPeriod : Nat := 3000

/-- Default ack deadline in seconds (section 3). -/
def defaultAckSec : Nat := 10

/-- The subscription row CreateSubscription persists (section 4.2):
defaults for ack deadline and retry policy, offsets at zero. -/
def mkCreatedSub (pUUID sName topicName : String) (pc : PushCfgReq)
    (status : String) : QSub :=
  { projectUUID := pUUID, name := sName, topic := topicName
    pushEndpoint := pc.pushEndpoint
    retPolicy := pc.retType.getD defaultRetPolicy
    retPeriod := pc.retPeriod.getD defaultRetPeriod
    ack := defaultAckSec, nextOffset := 0, pendingAck := none
    pushStatus := status }

/-- The row update a push activation or update writes (section 4.4). -/
def pushUpdatedSub (sub : QSub) (pc : PushCfgReq) (status : String) : QSub :=
  { sub with pushEndpoint := pc.pushEndpoint
             retPolicy := pc.retType.getD defaultRetPolicy
             retPeriod := pc.retPeriod.getD defaultRetPeriod
             pushStatus := status }

/-- The row update a push deactivation writes: endpoint and retry
policy cleared, status text set (section 4.4). -/
def deactivatedSub (sub : QSub) (status : String) : QSub :=
  { sub with pushEndpoint := "", retPolicy := "", retPeriod := 0
             pushStatus := status }

/-- Modelled from the spec: the CreateSubscription handler (SubCreate,
absent from the sources; sections 4.2, 4.4 and 7).  Checks the topic,
the name, then the push preconditions, and only persists the row after
every push precondition holds; the remoteAlreadyActive flag stands for
the remote push server reporting the subscription as already active.
Error message texts not examined by any claim are abbreviated. -/
def SubCreate (cfg : Config) (st : Store) (pName pUUID sName topicName : String)
    (pc : PushCfgReq) (remoteAlreadyActive : Bool) : ApiOut × Store :=
  if ¬ hasTopic st.topics pUUID topicName then
    (.fail ⟨404, "NOT_FOUND", "Topic not found"⟩, st)
  else if (queryOneSub st.subs pUUID sName).isSome then
    (.fail ⟨409, "ALREADY_EXISTS", "Subscription already exists"⟩, st)
  else if pc.pushEndpoint ≠ "" then
    if ¬ isValidHTTPS pc.pushEndpoint then
      (.fail ⟨400, "INVALID_ARGUMENT", "Push endpoint should be addressed by a valid https url"⟩, st)
    else if ¬ cfg.pushEnabled then
      (.fail ⟨409, "CONFLICT", "Push functionality is currently disabled"⟩, st)
    else
      match getUserFromToken st.users cfg.pushWorkerToken with
      | none => (.fail ⟨500, "INTERNAL_SERVER_ERROR", "Push functionality is currently unavailable"⟩, st)
      | some w =>
        let newSub : QSub :=
          mkCreatedSub pUUID sName topicName pc
            (if remoteAlreadyActive then alreadyActiveText pName sName
             else activatedCreateText pName sName)
        (.ok 200 (.subView newSub),
          { st with subs := st.subs ++ [newSub]
                    subACLs := aclAppend st.subACLs (pUUID, sName) w.uuid })
  else
    let newSub : QSub :=
      { projectUUID := pUUID, name := sName, topic := topicName
        pushEndpoint := "", retPolicy := "", retPeriod := 0
        ack := defaultAckSec, nextOffset := 0, pendingAck := none, pushStatus := "" }
    (.ok 200 (.subView newSub), { st with subs := st.subs ++ [newSub] })

/-- Modelled from the spec: the ModifyPushConfig handler (SubModPush,
absent from the sources; section 4.4).  A non-empty endpoint activates
or updates push after the https, push-enabled and worker-resolution
checks; an empty pushConfig always deactivates, clearing the endpoint
and retry-policy fields and setting the deactivation status text, with
the worker removed from the ACL only when resolvable. -/
def SubModPush (cfg : Config) (st : Store) (pName pUUID sName : String)
    (pc : PushCfgReq) (remoteAlreadyActive remoteNotActive : Bool) : ApiOut × Store :=
  match queryOneSub st.subs pUUID sName with
  | none => (.fail ⟨404, "NOT_FOUND", "Subscription not found"⟩, st)
  | some sub =>
    if pc.pushEndpoint ≠ "" then
      if ¬ isValidHTTPS pc.pushEndpoint then
        (.fail ⟨400, "INVALID_ARGUMENT", "Push endpoint should be addressed by a valid https url"⟩, st)
      else if ¬ cfg.pushEnabled then
        (.fail ⟨409, "CONFLICT", "Push functionality is currently disabled"⟩, st)
      else
        match getUserFromToken st.users cfg.pushWorkerToken with
        | none => (.fail ⟨500, "INTERNAL_SERVER_ERROR", "Push functionality is currently unavailable"⟩, st)
        | some w =>
          let sub2 : QSub :=
            pushUpdatedSub sub pc
              (if remoteAlreadyActive then alreadyActiveText pName sName
               else activatedModText pName sName)
          (.ok 200 .empty,
            { st with subs := updateSub st.subs pUUID sName sub2
                      subACLs := aclAppend st.subACLs (pUUID, sName) w.uuid })
    else
      let sub2 : QSub :=
        deactivatedSub sub
          (if remoteNotActive then notActiveText pName sName
           else deactivatedText pName sName)
      let acls2 :=
        match getUserFromToken st.users cfg.pushWorkerToken with
        | some w => aclRemove st.subACLs (pUUID, sName) w.uuid
        | none => st.subACLs
      (.ok 200 .empty, { st with subs := updateSub st.subs pUUID sName sub2, subACLs := acls2 })

/-- The store after a subscription row and its ACL entry are removed. -/
def deleteSubStore (st : Store) (pUUID sName : String) : Store :=
  { st with subs := st.subs.filter (fun s => ¬ (s.projectUUID = pUUID ∧ s.name = sName))
            subACLs := aclDrop st.subACLs (pUUID, sName) }

/-- Modelled from the spec: the DeleteSubscription handler (SubDelete,
absent from the sources; section 4.4 and the delete tests).  Deleting a
push-active subscription answers 200 with a one-field message body
carrying the deactivation text, or the not-active text when the remote
push server reports it not active; deleting a plain subscription
answers 200 with an empty body. -/
def SubDelete (st : Store) (pName pUUID sName : String)
    (remoteNotActive : Bool) : ApiOut × Store :=
  match queryOneSub st.subs pUUID sName with
  | none => (.fail ⟨404, "NOT_FOUND", "Subscription not found"⟩, st)
  | some sub =>
    let st2 : Store := deleteSubStore st pUUID sName
    if sub.pushEndpoint ≠ "" then
      (.ok 200 (.jsonMsg (if remoteNotActive then notActiveText pName sName
                          else deactivatedText pName sName)), st2)
    else
      (.ok 200 .empty, st2)

/-- Digits of a decimal numeral to its value; none when the character
list is empty or contains a non-digit. -/
def digitsVal (cs : List Char) : Option Nat :=
  if cs.isEmpty then none
  else cs.foldl (fun acc c =>
    match acc with
    | none => none
    | some n => if c.isDigit then some (n * 10 + (c.toNat - 48)) else none) (some 0)

/-- Modelled from the spec: ackId validation and offset extraction
(the Go helpers validAckID and the offset parser, absent from the
sources; section 4.3).  An ackId is valid for a (project, subscription)
pair exactly when it is the full resource path of that subscription, a
colon, and a decimal offset; the parse returns that offset. -/
def parseAckOffset (pName sName ackId : String) : Option Nat :=
  let pre := ("projects/" ++ pName ++ "/subscriptions/" ++ sName ++ ":").data
  if pre.isPrefixOf ackId.data then digitsVal (ackId.data.drop pre.length) else none

/-- Modelled from the spec: the Acknowledge handler (SubAck, absent from
the sources; section 4.3).  Invalid ackIds fail the whole call; an
acked offset beyond the outstanding batch is invalid; an ack arriving
more than the deadline after the pending-ack timestamp answers TIMEOUT
without touching the row; otherwise the call succeeds with the empty
JSON object and clears the pending-ack lease. -/
def SubAck (pName : String) (sub : QSub) (ackIds : List String) (now : Nat) :
    ApiOut × QSub :=
  let offs := ackIds.map (parseAckOffset pName sub.name)
  if ackIds.isEmpty || offs.any Option.isNone then
    (.fail ⟨400, "INVALID_ARGUMENT", "Invalid ack id"⟩, sub)
  else
    let maxOff := (offs.reduceOption).foldl max 0
    if sub.nextOffset < maxOff + 1 then
      (.fail ⟨400, "INVALID_ARGUMENT", "Invalid ack id"⟩, sub)
    else
      match sub.pendingAck with
      | none => (.fail ⟨408, "TIMEOUT", "ack timeout"⟩, sub)
      | some t =>
        if sub.ack < now - t then
          (.fail ⟨408, "TIMEOUT", "ack timeout"⟩, sub)
        else
          (.ok 200 .emptyObj, { sub with pendingAck := none })

/-- The caller identity the authorization layer resolves from the token:
uuid, roles within the target project, and service roles (section 4.1). -/
structure Caller where
  uuid : String
  projectRoles : List String
  serviceRoles : List String
deriving DecidableEq

/-- A subscription is push-active when its push endpoint is non-empty
(section 3). -/
def pushActive (sub : QSub) : Bool := sub.pushEndpoint ≠ ""

/-- Modelled from the spec: the authorization rule for pulling
(section 4.1 step 4).  The base capability is project admin, service
admin, or the consumer role together with ACL membership; pulling a
push-active subscription additionally requires the push-worker or
service-admin service role. -/
def pullAuth (sub : QSub) (acl : List String) (c : Caller) : Bool :=
  (c.projectRoles.contains "project_admin" || c.serviceRoles.contains "service_admin" ||
    (c.projectRoles.contains "consumer" && acl.contains c.uuid)) &&
  (!pushActive sub || c.serviceRoles.contains "push_worker" ||
    c.serviceRoles.contains "service_admin")

/-- A delivered message as shaped by the pull response (section 4.3). -/
structure RecMsg where
  ackId : String
  messageId : String
  data : String
deriving DecidableEq

/-- The pull outcome: the forbidden envelope or the received messages. -/
inductive PullOut where
  | forbidden : ErrInfo → PullOut
  | ok : List RecMsg → PullOut
deriving DecidableEq

/-- The messages a pull returns: up to maxM log entries starting at the
next offset, each with its ackId and decimal messageId (section 4.3). -/
def pullMessages (pName : String) (sub : QSub) (msgs : List String) (maxM : Nat) :
    List RecMsg :=
  ((msgs.enum.drop sub.nextOffset).take maxM).map (fun m =>
    { ackId := "projects/" ++ pName ++ "/subscriptions/" ++ sub.name ++ ":" ++ toString m.1
      messageId := toString m.1
      data := m.2 })

/-- Modelled from the spec: the pull handler (SubPull, absent from the
sources; sections 4.1 and 4.3) restricted to what the claims examine:
the authorization decision and the returned messages.  The offset and
lease bookkeeping of a successful pull is not needed by any claim. -/
def SubPull (pName : String) (sub : QSub) (acl : List String) (c : Caller)
    (msgs : List String) (maxM : Nat) : PullOut :=
  if pullAuth sub acl c then .ok (pullMessages pName sub msgs maxM)
  else .forbidden ⟨403, "FORBIDDEN", "Access to this resource is forbidden"⟩

/-- The page shape of the listing endpoints (section 4.5): the returned
items newest-first, each paired with its index in the creation order of
the underlying collection; the next-page cursor (none standing for the
empty token, a value for the base64 numeral of that value); and the
totalSize count. -/
structure PageOut (α : Type) where
  items : List (Nat × α)
  nextPageToken : Option Nat
  totalSize : Nat
deriving DecidableEq

/-- The elements of a collection that a visibility test keeps, listed
newest-first and paired with their creation-order indices. -/
def visibleDesc (xs : List α) (vis : α → Bool) : List (Nat × α) :=
  (xs.enum.filter (fun p => vis p.2)).reverse

/-- The visible elements a cursor still admits: all of them for the
first page, those at creation index at most the cursor afterwards. -/
def availFor (vd : List (Nat × α)) : Option Nat → List (Nat × α)
  | none => vd
  | some c => vd.filter (fun p => decide (p.1 ≤ c))

/-- Modelled from the spec: one listing call (section 4.5, the listing
handlers being absent from the sources).  A zero pageSize returns every
admitted element; otherwise the page is the first pageSize admitted
elements, the next-page cursor is the creation index of the first
element left over (none when nothing is left), and totalSize is the
count of visible elements.  The cursor values reproduce the concrete
page tokens recorded by the listing tests. -/
def queryPage (xs : List α) (vis : α → Bool) (tok : Option Nat) (ps : Nat) :
    PageOut α :=
  let vd := visibleDesc xs vis
  let avail := availFor vd tok
  { items := if ps = 0 then avail else avail.take ps
    nextPageToken := if ps = 0 then none else ((avail.drop ps).head?).map (fun p => p.1)
    totalSize := vd.length }

/-- Modelled from the spec: a topic or subscription listing as seen by a
caller (section 4.5 last rule).  Admins see everything; other callers
see exactly the resources whose ACL contains them, and the page counts
are computed over that filtered collection. -/
def listFor (c : Caller) (aclOf : α → List String) (xs : List α)
    (tok : Option Nat) (ps : Nat) : PageOut α :=
  let admin := c.projectRoles.contains "project_admin" ||
    c.serviceRoles.contains "service_admin"
  queryPage xs (fun x => admin || (aclOf x).contains c.uuid) tok ps

/-- A client iterating a listing: request a page, follow its cursor,
stop on the empty cursor.  The fuel argument only bounds the recursion;
the iteration itself is driven by the returned cursors. -/
def followAux (xs : List α) (vis : α → Bool) (ps : Nat) :
    Nat → Option Nat → List (PageOut α)
  | 0, _ => []
  | fuel+1, tok =>
    let p := queryPage xs vis tok ps
    match p.nextPageToken with
    | none => [p]
    | some c => p :: followAux xs vis ps fuel (some c)

/-- The full page sequence a client obtains by starting at the first
page and following every cursor. -/
def paginateAll (xs : List α) (vis : α → Bool) (ps : Nat) : List (PageOut α) :=
  followAux xs vis ps (xs.length + 1) none

/-- The health-check report: HTTP code, overall status text, and the
optional push-functionality note (section 4.7). -/
structure HealthOut where
  code : Nat
  status : String
  pushNote : Option String
deriving DecidableEq

/-- Modelled from the spec: the health-check handler (HealthCheck,
absent from the sources; section 4.7).  The report always answers 200;
the status is ok when push is disabled, warning when push is enabled
but the worker token resolves to no user, and otherwise reflects the
reachability of the push servers in the body only. -/
def HealthCheck (cfg : Config) (users : List QUser) (serversOk : Bool) : HealthOut :=
  if ¬ cfg.pushEnabled then
    { code := 200, status := "ok", pushNote := some "disabled" }
  else
    match getUserFromToken users cfg.pushWorkerToken with
    | none => { code := 200, status := "warning", pushNote := none }
    | some _ =>
      { code := 200, status := if serversOk then "ok" else "warning", pushNote := none }

/-! Concrete fixtures mirroring the mock store of the test suite. -/

/-- The push-worker user of the test fixtures (token push_token,
uuid uuid7). -/
def workerFix : QUser :=
  { uuid := "uuid7", name := "worker0", token := "push_token"
    serviceRoles := ["push_worker"] }

/-- Configuration with push enabled and a resolvable worker token. -/
def cfgFix : Config := { pushEnabled := true, pushWorkerToken := "push_token" }

/-- Configuration with push disabled. -/
def cfgDisabledFix : Config := { pushEnabled := false, pushWorkerToken := "push_token" }

/-- Configuration with push enabled but a worker token that resolves to
no user. -/
def cfgMissingFix : Config := { pushEnabled := true, pushWorkerToken := "missing" }

/-- Configuration with push disabled and an unresolvable worker token. -/
def cfgDownFix : Config := { pushEnabled := false, pushWorkerToken := "missing" }

/-- The push-active subscription sub4 of the fixtures. -/
def sub4Fix : QSub :=
  { projectUUID := "argo_uuid", name := "sub4", topic := "topic4"
    pushEndpoint := "endpoint.foo", retPolicy := "linear", retPeriod := 300
    ack := 10, nextOffset := 0, pendingAck := none, pushStatus := "push enabled" }

/-- The plain subscription sub1 of the fixtures, with an outstanding
pull: three messages delivered, lease taken at second 1000. -/
def sub1AckFix : QSub :=
  { projectUUID := "argo_uuid", name := "sub1", topic := "topic1"
    pushEndpoint := "", retPolicy := "", retPeriod := 0
    ack := 10, nextOffset := 3, pendingAck := some 1000, pushStatus := "" }

/-- A store holding only topic1 and the worker user. -/
def storeFix : Store :=
  { topics := [("argo_uuid", "topic1")], subs := [], users := [workerFix]
    subACLs := [] }

/-- A store holding the push-active sub4 with its ACL. -/
def storeSub4Fix : Store :=
  { topics := [("argo_uuid", "topic4")], subs := [sub4Fix], users := [workerFix]
    subACLs := [(("argo_uuid", "sub4"), ["uuid2", "uuid4", "uuid7"])] }

/-- The push block of the activation tests. -/
def pcFix : PushCfgReq :=
  { pushEndpoint := "https://www.example.com", retType := none, retPeriod := none }

/-- An empty push block (deactivation request). -/
def pcEmptyFix : PushCfgReq :=
  { pushEndpoint := "", retType := none, retPeriod := none }

/-- A caller holding only the consumer role within the project. -/
def consumerFix : Caller :=
  { uuid := "uuid2", projectRoles := ["consumer"], serviceRoles := [] }

/-- The consumer caller with the push-worker service role added. -/
def pwCallerFix : Caller :=
  { uuid := "uuid2", projectRoles := ["consumer"], serviceRoles := ["push_worker"] }

/-- The consumer caller with the service-admin service role added. -/
def saCallerFix : Caller :=
  { uuid := "uuid2", projectRoles := ["consumer"], serviceRoles := ["service_admin"] }

/-- The collection the C4 witness paginates. -/
def topicsFix : List String := ["topic1", "topic2", "topic3", "topic4"]

/-- The subscriptions the C5 witness lists. -/
def subsNamesFix : List String := ["sub1", "sub2", "sub3", "sub4"]

/-- The per-subscription ACLs of the C5 witness: the consumer of the
fixtures is absent only from sub1. -/
def aclOfFix (s : String) : List String :=
  if s = "sub1" then ["uuid1"] else ["uuid2", "uuid4"]

/-- The row CreateSubscription persists for the push fixture. -/
def subNewFix : QSub :=
  { projectUUID := "argo_uuid", name := "subNew", topic := "topic1"
    pushEndpoint := "https://www.example.com", retPolicy := "linear", retPeriod := 3000
    ack := 10, nextOffset := 0, pendingAck := none
    pushStatus := "Subscription /projects/ARGO/subscriptions/subNew activated" }

/-- The store of the C9 plain-delete witness. -/
def storeSub1Fix : Store :=
  { topics := [("argo_uuid", "topic1")], subs := [sub1AckFix], users := [workerFix]
    subACLs := [] }

end ArgoMsg

namespace ArgoMsg

/-- The enumeration of a list is strictly increasing in its indices. -/
theorem enum_pairwise_fst_lt (xs : List α) :
    xs.enum.Pairwise (fun a b => a.1 < b.1) := by
  rw [List.pairwise_iff_getElem]
  intro i j hi hj hij
  simpa using hij

/-- The visible part of a listing is strictly decreasing in creation
indices. -/
theorem visibleDesc_sdesc (xs : List α) (vis : α → Bool) :
    (visibleDesc xs vis).Pairwise (fun a b => b.1 < a.1) := by
  unfold visibleDesc
  rw [List.pairwise_reverse]
  exact (enum_pairwise_fst_lt xs).filter _

/-- The visible part of a listing has no duplicate entries. -/
theorem visibleDesc_nodup (xs : List α) (vis : α → Bool) :
    (visibleDesc xs vis).Nodup := by
  refine (visibleDesc_sdesc xs vis).imp ?_
  intro a b hlt heq
  exact absurd (heq ▸ hlt) (lt_irrefl _)

/-- There are no more visible entries than elements. -/
theorem visibleDesc_length_le (xs : List α) (vis : α → Bool) :
    (visibleDesc xs vis).length ≤ xs.length := by
  unfold visibleDesc
  rw [List.length_reverse]
  calc (xs.enum.filter (fun p => vis p.2)).length ≤ xs.enum.length :=
        List.length_filter_le _ _
    _ = xs.length := by simp

/-- The creation-order values of the visible entries. -/
theorem visibleDesc_map_snd (xs : List α) (vis : α → Bool) :
    (visibleDesc xs vis).map Prod.snd = (xs.filter vis).reverse := by
  unfold visibleDesc
  rw [List.map_reverse]
  congr 1
  have h : (xs.enum.map Prod.snd).filter vis
      = (xs.enum.filter (vis ∘ Prod.snd)).map Prod.snd := List.filter_map _ _
  rw [List.enum_map_snd] at h
  rw [h]
  rfl

/-- The number of visible entries equals the size of the filtered
collection. -/
theorem visibleDesc_length (xs : List α) (vis : α → Bool) :
    (visibleDesc xs vis).length = (xs.filter vis).length := by
  have h := congrArg List.length (visibleDesc_map_snd xs vis)
  simpa using h

/-- On a strictly index-decreasing list, keeping the entries with index
at most the index of the entry at position k keeps exactly the suffix
from position k. -/
theorem sdesc_filter_le_drop :
    ∀ (vd : List (Nat × α)), vd.Pairwise (fun a b => b.1 < a.1) →
      ∀ (k : Nat) (hk : k < vd.length),
        vd.filter (fun p => decide (p.1 ≤ vd[k].1)) = vd.drop k := by
  intro vd
  induction vd with
  | nil => intro _ k hk; simp at hk
  | cons x t ih =>
    intro h k hk
    rw [List.pairwise_cons] at h
    cases k with
    | zero =>
      simp only [List.getElem_cons_zero, List.drop_zero]
      refine List.filter_eq_self.mpr ?_
      intro a ha
      rcases List.mem_cons.mp ha with rfl | hat
      · simp
      · simpa using Nat.le_of_lt (h.1 a hat)
    | succ k =>
      have hk2 : k < t.length := by simpa using hk
      have hfx : ¬ ((fun p => decide (p.1 ≤ (x :: t)[k + 1].1)) x = true) := by
        have hmem : t[k] ∈ t := List.getElem_mem hk2
        have hlt : t[k].1 < x.1 := h.1 _ hmem
        simp only [List.getElem_cons_succ]
        simpa using Nat.not_le_of_lt hlt
      rw [List.filter_cons, if_neg hfx, List.drop_succ_cons]
      simpa using ih h.2 k hk2

/-- Dropping fewer entries than the length leaves the last entry in
place. -/
theorem getLast?_drop_of_lt :
    ∀ (l : List α) (k : Nat), k < l.length → (l.drop k).getLast? = l.getLast? := by
  intro l
  induction l with
  | nil => intro k hk; simp at hk
  | cons x t ih =>
    intro k hk
    cases k with
    | zero => rfl
    | succ k =>
      have hk2 : k < t.length := by simpa using hk
      have ht : t ≠ [] := by
        intro he
        rw [he] at hk2
        simp at hk2
      rw [List.drop_succ_cons, ih k hk2]
      cases t with
      | nil => exact absurd rfl ht
      | cons b t2 => rfl

end ArgoMsg

namespace ArgoMsg

/-- Core invariant of cursor iteration: when the admitted entries are
exactly the suffix of the visible sequence from position k, following
cursors yields precisely that suffix, every page reports the full
visible count, and a cursor is empty exactly on the page holding the
oldest visible entry. -/
theorem followAux_spec (xs : List α) (vis : α → Bool) (ps : Nat) (hps : ps ≠ 0) :
    ∀ (fuel k : Nat) (tok : Option Nat),
      availFor (visibleDesc xs vis) tok = (visibleDesc xs vis).drop k →
      k < (visibleDesc xs vis).length →
      (visibleDesc xs vis).length - k ≤ fuel →
      ((followAux xs vis ps fuel tok).map PageOut.items).flatten
          = (visibleDesc xs vis).drop k
        ∧ (∀ p ∈ followAux xs vis ps fuel tok,
            p.totalSize = (visibleDesc xs vis).length)
        ∧ (∀ p ∈ followAux xs vis ps fuel tok,
            (p.nextPageToken = none ↔
              ∃ a ∈ p.items, (visibleDesc xs vis).getLast? = some a)) := by
  intro fuel
  induction fuel with
  | zero =>
    intro k tok _ hk hf
    omega
  | succ fuel ih =>
    intro k tok havail hk hf
    have hpage : queryPage xs vis tok ps =
        { items := ((visibleDesc xs vis).drop k).take ps
          nextPageToken := (((visibleDesc xs vis).drop (k + ps)).head?).map (fun p => p.1)
          totalSize := (visibleDesc xs vis).length } := by
      simp only [queryPage, havail, if_neg hps]
      rw [List.drop_drop]
    rcases hq : ((visibleDesc xs vis).drop (k + ps)).head? with _ | q
    · -- the page holds everything that is left
      have hrest : (visibleDesc xs vis).drop (k + ps) = [] := by
        simpa using hq
      have hlen : ((visibleDesc xs vis).drop k).length ≤ ps := by
        have h1 : ((visibleDesc xs vis).drop k).drop ps = [] := by
          rw [List.drop_drop]
          exact hrest
        rw [List.drop_eq_nil_iff] at h1
        exact h1
      have hitems : ((visibleDesc xs vis).drop k).take ps
          = (visibleDesc xs vis).drop k := List.take_of_length_le hlen
      have hfa : followAux xs vis ps (fuel + 1) tok = [queryPage xs vis tok ps] := by
        simp only [followAux]
        rw [hpage]
        simp [hq]
      have hne : (visibleDesc xs vis).drop k ≠ [] := by
        intro he
        rw [List.drop_eq_nil_iff] at he
        omega
      refine ⟨?_, ?_, ?_⟩
      · rw [hfa, hpage]
        simpa using hitems
      · intro p hp
        rw [hfa] at hp
        rcases List.mem_singleton.mp hp with rfl
        rw [hpage]
      · intro p hp
        rw [hfa] at hp
        rcases List.mem_singleton.mp hp with rfl
        rw [hpage]
        simp only [hq, Option.map_none]
        constructor
        · intro _
          refine ⟨((visibleDesc xs vis).drop k).getLast hne, ?_, ?_⟩
          · rw [hitems]
            exact List.getLast_mem hne
          · rw [← getLast?_drop_of_lt (visibleDesc xs vis) k hk]
            exact List.getLast?_eq_getLast _ hne
        · intro _
          rfl
    · -- a further page follows
      have hne2 : (visibleDesc xs vis).drop (k + ps) ≠ [] := by
        intro he
        rw [he] at hq
        simp at hq
      have h2 : k + ps < (visibleDesc xs vis).length :=
        List.length_lt_of_drop_ne_nil hne2
      have hqe : q = (visibleDesc xs vis)[k + ps] := by
        have hh := List.head?_drop (visibleDesc xs vis) (k + ps)
        rw [hq, List.getElem?_eq_getElem h2] at hh
        exact Option.some_injective _ hh
      have havail2 : availFor (visibleDesc xs vis) (some q.1)
          = (visibleDesc xs vis).drop (k + ps) := by
        show (visibleDesc xs vis).filter _ = _
        rw [hqe]
        exact sdesc_filter_le_drop (visibleDesc xs vis) (visibleDesc_sdesc xs vis) (k + ps) h2
      obtain ⟨ihA, ihB, ihC⟩ := ih (k + ps) (some q.1) havail2 h2 (by omega)
      have hfa : followAux xs vis ps (fuel + 1) tok
          = queryPage xs vis tok ps :: followAux xs vis ps fuel (some q.1) := by
        simp only [followAux]
        rw [hpage]
        simp [hq]
      refine ⟨?_, ?_, ?_⟩
      · rw [hfa]
        simp only [List.map_cons, List.flatten_cons, hpage, ihA]
        rw [← List.drop_drop, List.take_append_drop]
      · intro p hp
        rw [hfa] at hp
        rcases List.mem_cons.mp hp with rfl | hmem
        · rw [hpage]
        · exact ihB p hmem
      · intro p hp
        rw [hfa] at hp
        rcases List.mem_cons.mp hp with rfl | hmem
        · rw [hpage]
          simp only [hq, Option.map_some]
          constructor
          · intro hfalse
            exact absurd hfalse (by simp)
          · rintro ⟨a, ha, hlast⟩
            have hnd : ((visibleDesc xs vis).drop k).Nodup :=
              (visibleDesc_nodup xs vis).sublist (List.drop_sublist k (visibleDesc xs vis))
            have hdisj := List.disjoint_take_drop hnd (Nat.le_refl ps)
            have hlast2 : (visibleDesc xs vis).getLast?
                = some (((visibleDesc xs vis).drop (k + ps)).getLast hne2) := by
              rw [← getLast?_drop_of_lt (visibleDesc xs vis) (k + ps) h2]
              exact List.getLast?_eq_getLast _ hne2
            have hae : a = ((visibleDesc xs vis).drop (k + ps)).getLast hne2 := by
              rw [hlast] at hlast2
              exact Option.some_injective _ hlast2
            have hmem2 : a ∈ ((visibleDesc xs vis).drop k).drop ps := by
              rw [List.drop_drop, hae]
              exact List.getLast_mem hne2
            exact (hdisj ha hmem2).elim
        · exact ihC p hmem

end ArgoMsg

namespace ArgoMsg

/-- A found subscription row carries the identity it was looked up by. -/
theorem queryOneSub_some_ids {subs : List QSub} {puuid name : String} {sub : QSub}
    (h : queryOneSub subs puuid name = some sub) :
    sub.projectUUID = puuid ∧ sub.name = name := by
  have hp := List.find?_some h
  simp only [Bool.and_eq_true, beq_iff_eq] at hp
  exact hp

/-- Updating a present row makes the lookup return the new row. -/
theorem queryOneSub_updateSub {subs : List QSub} {puuid name : String}
    {s2 sub : QSub} (h : queryOneSub subs puuid name = some sub)
    (h2 : s2.projectUUID = puuid) (h3 : s2.name = name) :
    queryOneSub (updateSub subs puuid name s2) puuid name = some s2 := by
  induction subs with
  | nil => simp [queryOneSub] at h
  | cons c t ih =>
    by_cases hc : (c.projectUUID == puuid && c.name == name) = true
    · simp only [queryOneSub, updateSub, List.map_cons]
      rw [if_pos hc]
      exact List.find?_cons_of_pos _ (by simp [h2, h3])
    · have h4 : queryOneSub t puuid name = some sub := by
        rw [queryOneSub, @List.find?_cons_of_neg QSub
          (fun s => s.projectUUID == puuid && s.name == name) c t hc] at h
        exact h
      simp only [queryOneSub, updateSub, List.map_cons]
      rw [if_neg hc, @List.find?_cons_of_neg QSub
        (fun s => s.projectUUID == puuid && s.name == name) c
        (List.map (fun s => if s.projectUUID == puuid && s.name == name then s2 else s) t) hc]
      exact ih h4

/-- A row appended to a store where the lookup misses is found by the
lookup afterwards. -/
theorem queryOneSub_append {subs : List QSub} {puuid name : String} {s2 : QSub}
    (h : queryOneSub subs puuid name = none)
    (h2 : s2.projectUUID = puuid) (h3 : s2.name = name) :
    queryOneSub (subs ++ [s2]) puuid name = some s2 := by
  show List.find? _ _ = _
  rw [List.find?_append]
  rw [queryOneSub] at h
  rw [h, Option.none_or]
  exact List.find?_cons_of_pos _ (by simp [h2, h3])

end ArgoMsg

namespace ArgoMsg

/-- Every page is drawn from the visible sequence. -/
theorem queryPage_items_sublist (xs : List α) (vis : α → Bool)
    (tok : Option Nat) (ps : Nat) :
    (queryPage xs vis tok ps).items.Sublist (visibleDesc xs vis) := by
  have h1 : (availFor (visibleDesc xs vis) tok).Sublist (visibleDesc xs vis) := by
    cases tok with
    | none => exact List.Sublist.refl _
    | some c => exact List.filter_sublist _
  by_cases hps : ps = 0
  · simpa [queryPage, hps] using h1
  · simp only [queryPage, if_neg hps]
    exact (List.take_sublist _ _).trans h1

/-- Entries of the visible sequence pass the visibility test. -/
theorem vis_of_mem_visibleDesc {xs : List α} {vis : α → Bool} {q : Nat × α}
    (h : q ∈ visibleDesc xs vis) : vis q.2 = true := by
  unfold visibleDesc at h
  rw [List.mem_reverse] at h
  exact (List.mem_filter.mp h).2

/-- C4: iterating any listing with a fixed positive pageSize from the
first page and following nextPageToken visits each visible element
exactly once, newest first (the flattened pages are exactly the
filtered collection reversed); every response carries totalSize equal
to the visible count; and the cursor is empty exactly on the page that
contains the oldest visible element. -/
theorem claimC4_pagination (xs : List α) (vis : α → Bool) (ps : Nat)
    (hps : ps ≠ 0) (hvd : visibleDesc xs vis ≠ []) :
    ((paginateAll xs vis ps).map PageOut.items).flatten = visibleDesc xs vis ∧
    (((paginateAll xs vis ps).map PageOut.items).flatten).map Prod.snd
        = (xs.filter vis).reverse ∧
    (∀ p ∈ paginateAll xs vis ps, p.totalSize = (xs.filter vis).length) ∧
    (∀ p ∈ paginateAll xs vis ps,
      (p.nextPageToken = none ↔
        ∃ a ∈ p.items, (visibleDesc xs vis).getLast? = some a)) := by
  have hk : 0 < (visibleDesc xs vis).length := List.length_pos.mpr hvd
  have hf : (visibleDesc xs vis).length - 0 ≤ xs.length + 1 := by
    have := visibleDesc_length_le xs vis
    omega
  have havail : availFor (visibleDesc xs vis) none = (visibleDesc xs vis).drop 0 := by
    simp [availFor]
  obtain ⟨hA, hB, hC⟩ := followAux_spec xs vis ps hps (xs.length + 1) 0 none havail hk hf
  rw [List.drop_zero] at hA
  simp only [paginateAll]
  refine ⟨hA, ?_, ?_, hC⟩
  · rw [hA, visibleDesc_map_snd]
  · intro p hp
    rw [hB p hp, visibleDesc_length]



/-- Witness for C4 at the four-topic fixture with pageSize 2. -/
theorem claimC4_pagination_witness :
    (2 ≠ 0) ∧ visibleDesc topicsFix (fun _ => true) ≠ [] ∧
    (((paginateAll topicsFix (fun _ => true) 2).map PageOut.items).flatten
        = visibleDesc topicsFix (fun _ => true) ∧
      (((paginateAll topicsFix (fun _ => true) 2).map PageOut.items).flatten).map Prod.snd
          = (topicsFix.filter (fun _ => true)).reverse ∧
      (∀ p ∈ paginateAll topicsFix (fun _ => true) 2,
        p.totalSize = (topicsFix.filter (fun _ => true)).length) ∧
      (∀ p ∈ paginateAll topicsFix (fun _ => true) 2,
        (p.nextPageToken = none ↔
          ∃ a ∈ p.items, (visibleDesc topicsFix (fun _ => true)).getLast? = some a))) :=
  ⟨by decide, by decide,
    claimC4_pagination topicsFix (fun _ => true) 2 (by decide) (by decide)⟩

/-- C5: a topic or subscription listing for a caller who is neither
project admin nor service admin reports totalSize equal to the number
of resources whose ACL contains the caller, and cuts its page from that
filtered sequence only. -/
theorem claimC5_acl_before_paging (c : Caller) (aclOf : α → List String)
    (xs : List α) (tok : Option Nat) (ps : Nat)
    (h1 : c.projectRoles.contains "project_admin" = false)
    (h2 : c.serviceRoles.contains "service_admin" = false) :
    (listFor c aclOf xs tok ps).totalSize
        = (xs.filter (fun x => (aclOf x).contains c.uuid)).length ∧
    (listFor c aclOf xs tok ps).items.Sublist
        (visibleDesc xs (fun x => (aclOf x).contains c.uuid)) ∧
    (∀ q ∈ (listFor c aclOf xs tok ps).items, (aclOf q.2).contains c.uuid = true) := by
  have hfor : listFor c aclOf xs tok ps
      = queryPage xs (fun x => (aclOf x).contains c.uuid) tok ps := by
    simp only [listFor, h1, h2]
    rfl
  rw [hfor]
  refine ⟨?_, queryPage_items_sublist _ _ _ _, ?_⟩
  · show (visibleDesc xs _).length = _
    exact visibleDesc_length _ _
  · intro q hq
    exact vis_of_mem_visibleDesc
      ((queryPage_items_sublist xs _ tok ps).subset hq)





/-- Witness for C5 at the consumer fixture: the filtered count is 3. -/
theorem claimC5_acl_before_paging_witness :
    consumerFix.projectRoles.contains "project_admin" = false ∧
    consumerFix.serviceRoles.contains "service_admin" = false ∧
    ((listFor consumerFix aclOfFix subsNamesFix none 2).totalSize
        = (subsNamesFix.filter (fun x => (aclOfFix x).contains consumerFix.uuid)).length ∧
      (listFor consumerFix aclOfFix subsNamesFix none 2).items.Sublist
        (visibleDesc subsNamesFix (fun x => (aclOfFix x).contains consumerFix.uuid)) ∧
      (∀ q ∈ (listFor consumerFix aclOfFix subsNamesFix none 2).items,
        (aclOfFix q.2).contains consumerFix.uuid = true)) :=
  ⟨by decide, by decide,
    claimC5_acl_before_paging consumerFix aclOfFix subsNamesFix none 2
      (by decide) (by decide)⟩

end ArgoMsg

namespace ArgoMsg

/-- C7: pulling a push-active subscription succeeds only for callers
holding the push-worker or service-admin service role; a caller with
only the consumer role (and ACL membership) is answered FORBIDDEN,
while the same caller with either service role added receives the
messages. -/
theorem claimC7_pull_push_active (pName : String) (sub : QSub) (acl : List String)
    (c : Caller) (msgs : List String) (maxM : Nat)
    (hactive : pushActive sub = true)
    (hcons : c.projectRoles.contains "consumer" = true)
    (hacl : acl.contains c.uuid = true) :
    (c.serviceRoles = [] →
      SubPull pName sub acl c msgs maxM =
        .forbidden ⟨403, "FORBIDDEN", "Access to this resource is forbidden"⟩) ∧
    (c.serviceRoles.contains "push_worker" = true →
      SubPull pName sub acl c msgs maxM = .ok (pullMessages pName sub msgs maxM)) ∧
    (c.serviceRoles.contains "service_admin" = true →
      SubPull pName sub acl c msgs maxM = .ok (pullMessages pName sub msgs maxM)) ∧
    (∀ r, SubPull pName sub acl c msgs maxM = .ok r →
      c.serviceRoles.contains "push_worker" = true ∨
      c.serviceRoles.contains "service_admin" = true) := by
  refine ⟨?_, ?_, ?_, ?_⟩
  · intro hsr
    have hpa : pullAuth sub acl c = false := by
      simp [pullAuth, hactive, hsr]
    simp [SubPull, hpa]
  · intro hpw
    have hcons2 : "consumer" ∈ c.projectRoles := by simpa using hcons
    have hacl2 : c.uuid ∈ acl := by simpa using hacl
    have hpw2 : "push_worker" ∈ c.serviceRoles := by simpa using hpw
    have hpa : pullAuth sub acl c = true := by
      simp [pullAuth]
      tauto
    simp [SubPull, hpa]
  · intro hsa
    have hcons2 : "consumer" ∈ c.projectRoles := by simpa using hcons
    have hacl2 : c.uuid ∈ acl := by simpa using hacl
    have hsa2 : "service_admin" ∈ c.serviceRoles := by simpa using hsa
    have hpa : pullAuth sub acl c = true := by
      simp [pullAuth]
      tauto
    simp [SubPull, hpa]
  · intro r hr
    by_cases hpw : c.serviceRoles.contains "push_worker" = true
    · exact Or.inl hpw
    · by_cases hsa : c.serviceRoles.contains "service_admin" = true
      · exact Or.inr hsa
      · exfalso
        have hpw2 : "push_worker" ∉ c.serviceRoles := by
          simpa using hpw
        have hsa2 : "service_admin" ∉ c.serviceRoles := by
          simpa using hsa
        have hpa : pullAuth sub acl c = false := by
          simp [pullAuth, hactive, hpw2, hsa2]
        simp [SubPull, hpa] at hr

/-- Witness for C7 at the fixtures: consumer alone is forbidden, the
push-worker and service-admin variants both receive the messages. -/
theorem claimC7_pull_push_active_witness :
    pushActive sub4Fix = true ∧
    consumerFix.projectRoles.contains "consumer" = true ∧
    (["uuid2", "uuid4", "uuid7"].contains consumerFix.uuid = true) ∧
    SubPull "ARGO" sub4Fix ["uuid2", "uuid4", "uuid7"] consumerFix ["m0"] 1 =
      .forbidden ⟨403, "FORBIDDEN", "Access to this resource is forbidden"⟩ ∧
    SubPull "ARGO" sub4Fix ["uuid2", "uuid4", "uuid7"] pwCallerFix ["m0"] 1 =
      .ok (pullMessages "ARGO" sub4Fix ["m0"] 1) ∧
    SubPull "ARGO" sub4Fix ["uuid2", "uuid4", "uuid7"] saCallerFix ["m0"] 1 =
      .ok (pullMessages "ARGO" sub4Fix ["m0"] 1) :=
  ⟨by decide, by decide, by decide,
    (claimC7_pull_push_active "ARGO" sub4Fix ["uuid2", "uuid4", "uuid7"] consumerFix
      ["m0"] 1 (by decide) (by decide) (by decide)).1 rfl,
    (claimC7_pull_push_active "ARGO" sub4Fix ["uuid2", "uuid4", "uuid7"] pwCallerFix
      ["m0"] 1 (by decide) (by decide) (by decide)).2.1 (by decide),
    (claimC7_pull_push_active "ARGO" sub4Fix ["uuid2", "uuid4", "uuid7"] saCallerFix
      ["m0"] 1 (by decide) (by decide) (by decide)).2.2.1 (by decide)⟩

/-- C8: isValidHTTPS accepts exactly the strings that begin with the
https scheme marker and whose remainder is a syntactically valid URL
tail; in particular it rejects the four strings of the test suite and
accepts the https example. -/
theorem claimC8_isValidHTTPS :
    isValidHTTPS "ht" = false ∧
    isValidHTTPS "www.example.com" = false ∧
    isValidHTTPS "https:www.example.com" = false ∧
    isValidHTTPS "http://www.example.com" = false ∧
    isValidHTTPS "https://www.example.com" = true ∧
    (∀ s : String, isValidHTTPS s = true ↔
      ("https://".data.isPrefixOf s.data = true ∧
        validURLTail (s.data.drop 8) = true)) := by
  refine ⟨by decide, by decide, by decide, by decide, by decide, ?_⟩
  intro s
  simp [isValidHTTPS]

/-- C10: the health check always answers HTTP 200; when push is enabled
and the worker token resolves to no user only the body status degrades
to warning. -/
theorem claimC10_health_always_200 (cfg : Config) (users : List QUser)
    (serversOk : Bool) :
    (HealthCheck cfg users serversOk).code = 200 ∧
    (cfg.pushEnabled = true →
      getUserFromToken users cfg.pushWorkerToken = none →
      (HealthCheck cfg users serversOk).status = "warning") := by
  constructor
  · cases hpe : cfg.pushEnabled
    · simp [HealthCheck, hpe]
    · cases hw : getUserFromToken users cfg.pushWorkerToken <;>
        simp [HealthCheck, hpe, hw]
  · intro h1 h2
    simp [HealthCheck, h1, h2]

/-- Witness for C10 at the missing-worker fixture. -/
theorem claimC10_health_always_200_witness :
    cfgMissingFix.pushEnabled = true ∧
    getUserFromToken storeFix.users cfgMissingFix.pushWorkerToken = none ∧
    (HealthCheck cfgMissingFix storeFix.users true).code = 200 ∧
    (HealthCheck cfgMissingFix storeFix.users true).status = "warning" :=
  ⟨by decide, by decide,
    (claimC10_health_always_200 cfgMissingFix storeFix.users true).1,
    (claimC10_health_always_200 cfgMissingFix storeFix.users true).2 (by decide) (by decide)⟩

end ArgoMsg

namespace ArgoMsg

/-- C1: CreateSubscription with a non-empty push block answers 500
"Push functionality is currently unavailable" and leaves the store
unchanged when push is enabled but the worker token resolves to no
user, and answers 409 CONFLICT with the store unchanged when push is
globally disabled. -/
theorem claimC1_create_push_atomic (cfg : Config) (st : Store)
    (pName pUUID sName topicName : String) (pc : PushCfgReq) (ra : Bool)
    (hep : pc.pushEndpoint ≠ "")
    (hurl : isValidHTTPS pc.pushEndpoint = true)
    (htop : hasTopic st.topics pUUID topicName = true)
    (hnew : queryOneSub st.subs pUUID sName = none) :
    (cfg.pushEnabled = true →
      getUserFromToken st.users cfg.pushWorkerToken = none →
      SubCreate cfg st pName pUUID sName topicName pc ra =
        (.fail ⟨500, "INTERNAL_SERVER_ERROR", "Push functionality is currently unavailable"⟩,
          st)) ∧
    (cfg.pushEnabled = false →
      SubCreate cfg st pName pUUID sName topicName pc ra =
        (.fail ⟨409, "CONFLICT", "Push functionality is currently disabled"⟩, st)) := by
  constructor
  · intro h1 h2
    simp [SubCreate, htop, hnew, hep, hurl, h1, h2]
  · intro h1
    simp [SubCreate, htop, hnew, hep, hurl, h1]

/-- Witness for C1 at the fixtures: unresolvable worker token, and
push disabled. -/
theorem claimC1_create_push_atomic_witness :
    pcFix.pushEndpoint ≠ "" ∧
    isValidHTTPS pcFix.pushEndpoint = true ∧
    hasTopic storeFix.topics "argo_uuid" "topic1" = true ∧
    queryOneSub storeFix.subs "argo_uuid" "subNew" = none ∧
    SubCreate cfgMissingFix storeFix "ARGO" "argo_uuid" "subNew" "topic1" pcFix false =
      (.fail ⟨500, "INTERNAL_SERVER_ERROR", "Push functionality is currently unavailable"⟩,
        storeFix) ∧
    SubCreate cfgDisabledFix storeFix "ARGO" "argo_uuid" "subNew" "topic1" pcFix false =
      (.fail ⟨409, "CONFLICT", "Push functionality is currently disabled"⟩, storeFix) :=
  ⟨by decide, by decide, by decide, by decide,
    (claimC1_create_push_atomic cfgMissingFix storeFix "ARGO" "argo_uuid" "subNew"
      "topic1" pcFix false (by decide) (by decide) (by decide) (by decide)).1
      rfl (by decide),
    (claimC1_create_push_atomic cfgDisabledFix storeFix "ARGO" "argo_uuid" "subNew"
      "topic1" pcFix false (by decide) (by decide) (by decide) (by decide)).2 rfl⟩

end ArgoMsg

namespace ArgoMsg

/-- C2: for an acknowledge call on a subscription with an outstanding
pull, an ack arriving more than the deadline after the lease timestamp
answers TIMEOUT (HTTP 408, status TIMEOUT, message "ack timeout") with
the row untouched; an ack within the deadline whose offset is
next offset minus one answers 200 with the empty JSON object and
clears the lease. -/
theorem claimC2_ack_lease (pName : String) (sub : QSub) (a : String)
    (o t now : Nat)
    (hpa : sub.pendingAck = some t)
    (hparse : parseAckOffset pName sub.name a = some o)
    (hbatch : o + 1 ≤ sub.nextOffset) :
    (sub.ack < now - t →
      SubAck pName sub [a] now = (.fail ⟨408, "TIMEOUT", "ack timeout"⟩, sub)) ∧
    (now - t ≤ sub.ack → o + 1 = sub.nextOffset →
      SubAck pName sub [a] now = (.ok 200 .emptyObj, { sub with pendingAck := none })) := by
  have hnl : ¬ sub.nextOffset < (List.foldl max 0 (List.reduceOption [some o])) + 1 := by
    simp only [List.reduceOption_cons_of_some, List.reduceOption_nil,
      List.foldl_cons, List.foldl_nil]
    omega
  constructor
  · intro hto
    simp [SubAck, hparse, hpa, hnl, hto]
    exact hbatch
  · intro hin hoff
    have hto : ¬ sub.ack < now - t := Nat.not_lt.mpr hin
    simp [SubAck, hparse, hpa, hnl, hto]
    exact hbatch

/-- Witness for C2 at the sub1 fixture: lease taken at second 1000 with
a ten-second deadline; the ack of offset 2 at second 1011 times out,
the same ack at second 1005 succeeds. -/
theorem claimC2_ack_lease_witness :
    sub1AckFix.pendingAck = some 1000 ∧
    parseAckOffset "ARGO" sub1AckFix.name "projects/ARGO/subscriptions/sub1:2" = some 2 ∧
    2 + 1 ≤ sub1AckFix.nextOffset ∧
    SubAck "ARGO" sub1AckFix ["projects/ARGO/subscriptions/sub1:2"] 1011 =
      (.fail ⟨408, "TIMEOUT", "ack timeout"⟩, sub1AckFix) ∧
    SubAck "ARGO" sub1AckFix ["projects/ARGO/subscriptions/sub1:2"] 1005 =
      (.ok 200 .emptyObj, { sub1AckFix with pendingAck := none }) :=
  ⟨by decide, by decide, by decide,
    (claimC2_ack_lease "ARGO" sub1AckFix "projects/ARGO/subscriptions/sub1:2" 2 1000 1011
      (by decide) (by decide) (by decide)).1 (by decide),
    (claimC2_ack_lease "ARGO" sub1AckFix "projects/ARGO/subscriptions/sub1:2" 2 1000 1005
      (by decide) (by decide) (by decide)).2 (by decide) (by decide)⟩

end ArgoMsg

namespace ArgoMsg



/-- Counterexample to C3: a CreateSubscription call that successfully
activates push persists a push status without the Success-prefix, so it
equals neither of the two texts the claim allows. -/
theorem claimC3_push_status_counterexample :
    (SubCreate cfgFix storeFix "ARGO" "argo_uuid" "subNew" "topic1" pcFix false).1 =
      .ok 200 (.subView subNewFix) ∧
    queryOneSub (SubCreate cfgFix storeFix "ARGO" "argo_uuid" "subNew" "topic1"
      pcFix false).2.subs "argo_uuid" "subNew" = some subNewFix ∧
    subNewFix.pushStatus = "Subscription /projects/ARGO/subscriptions/subNew activated" ∧
    subNewFix.pushStatus ≠ "Success: Subscription /projects/ARGO/subscriptions/subNew activated" ∧
    subNewFix.pushStatus ≠ alreadyActiveText "ARGO" "subNew" := by
  refine ⟨by decide, by decide, by decide, by decide, by decide⟩

/-- C3 as amended: a push activation through ModifyPushConfig persists
the Success-prefixed activation text (or the already-active text when
the remote reports so), while a push activation through
CreateSubscription persists the activation text without the
Success-prefix (or the already-active text). -/
theorem claimC3_push_status_amended (cfg : Config) (st : Store)
    (pName pUUID sName topicName : String) (pc : PushCfgReq) (w : QUser)
    (hep : pc.pushEndpoint ≠ "")
    (hurl : isValidHTTPS pc.pushEndpoint = true)
    (hpush : cfg.pushEnabled = true)
    (hw : getUserFromToken st.users cfg.pushWorkerToken = some w) :
    (∀ ra : Bool, hasTopic st.topics pUUID topicName = true →
      queryOneSub st.subs pUUID sName = none →
      ∃ s, (SubCreate cfg st pName pUUID sName topicName pc ra).1 = .ok 200 (.subView s) ∧
        queryOneSub (SubCreate cfg st pName pUUID sName topicName pc ra).2.subs
          pUUID sName = some s ∧
        s.pushStatus = (if ra then alreadyActiveText pName sName
                        else activatedCreateText pName sName)) ∧
    (∀ (ra rna : Bool) (sub : QSub), queryOneSub st.subs pUUID sName = some sub →
      ∃ s, (SubModPush cfg st pName pUUID sName pc ra rna).1 = .ok 200 .empty ∧
        queryOneSub (SubModPush cfg st pName pUUID sName pc ra rna).2.subs
          pUUID sName = some s ∧
        s.pushStatus = (if ra then alreadyActiveText pName sName
                        else activatedModText pName sName)) := by
  constructor
  · intro ra htop hnew
    refine ⟨mkCreatedSub pUUID sName topicName pc
      (if ra then alreadyActiveText pName sName else activatedCreateText pName sName),
      ?_, ?_, rfl⟩
    · simp [SubCreate, htop, hnew, hep, hurl, hpush, hw]
    · have hres : (SubCreate cfg st pName pUUID sName topicName pc ra).2.subs =
          st.subs ++ [mkCreatedSub pUUID sName topicName pc
            (if ra then alreadyActiveText pName sName
             else activatedCreateText pName sName)] := by
        simp [SubCreate, htop, hnew, hep, hurl, hpush, hw]
      rw [hres]
      exact queryOneSub_append hnew rfl rfl
  · intro ra rna sub hsub
    obtain ⟨hid1, hid2⟩ := queryOneSub_some_ids hsub
    refine ⟨pushUpdatedSub sub pc
      (if ra then alreadyActiveText pName sName else activatedModText pName sName),
      ?_, ?_, rfl⟩
    · simp [SubModPush, hsub, hep, hurl, hpush, hw]
    · have hres : (SubModPush cfg st pName pUUID sName pc ra rna).2.subs =
          updateSub st.subs pUUID sName (pushUpdatedSub sub pc
            (if ra then alreadyActiveText pName sName
             else activatedModText pName sName)) := by
        simp [SubModPush, hsub, hep, hurl, hpush, hw]
      rw [hres]
      exact queryOneSub_updateSub hsub hid1 hid2

end ArgoMsg

namespace ArgoMsg

/-- Witness for the amended C3 at the fixtures: the create path
persists the unprefixed activation text. -/
theorem claimC3_push_status_amended_witness :
    pcFix.pushEndpoint ≠ "" ∧
    isValidHTTPS pcFix.pushEndpoint = true ∧
    cfgFix.pushEnabled = true ∧
    getUserFromToken storeFix.users cfgFix.pushWorkerToken = some workerFix ∧
    (∃ s, (SubCreate cfgFix storeFix "ARGO" "argo_uuid" "subNew" "topic1" pcFix false).1
        = .ok 200 (.subView s) ∧
      queryOneSub (SubCreate cfgFix storeFix "ARGO" "argo_uuid" "subNew" "topic1"
        pcFix false).2.subs "argo_uuid" "subNew" = some s ∧
      s.pushStatus = (if false then alreadyActiveText "ARGO" "subNew"
                      else activatedCreateText "ARGO" "subNew")) :=
  ⟨by decide, by decide, rfl, by decide,
    (claimC3_push_status_amended cfgFix storeFix "ARGO" "argo_uuid" "subNew" "topic1"
      pcFix workerFix (by decide) (by decide) rfl (by decide)).1 false
      (by decide) (by decide)⟩

/-- C6: ModifyPushConfig with an empty pushConfig on a push-active
subscription always answers 200 with an empty body and persists the row
with the endpoint and retry-policy fields cleared and the deactivation
status text, whatever the push toggle and worker resolvability. -/
theorem claimC6_deactivation_always (cfg : Config) (st : Store)
    (pName pUUID sName : String) (pc : PushCfgReq) (ra : Bool) (sub : QSub)
    (hsub : queryOneSub st.subs pUUID sName = some sub)
    (_hactive : pushActive sub = true)
    (hempty : pc.pushEndpoint = "") :
    (SubModPush cfg st pName pUUID sName pc ra false).1 = .ok 200 .empty ∧
    queryOneSub (SubModPush cfg st pName pUUID sName pc ra false).2.subs pUUID sName =
      some (deactivatedSub sub (deactivatedText pName sName)) := by
  obtain ⟨hid1, hid2⟩ := queryOneSub_some_ids hsub
  constructor
  · simp [SubModPush, hsub, hempty]
  · have hres : (SubModPush cfg st pName pUUID sName pc ra false).2.subs =
        updateSub st.subs pUUID sName (deactivatedSub sub (deactivatedText pName sName)) := by
      simp [SubModPush, hsub, hempty]
    rw [hres]
    exact queryOneSub_updateSub hsub hid1 hid2

/-- Witness for C6 with push disabled and an unresolvable worker at
once: deactivating sub4 still answers 200 and clears the row. -/
theorem claimC6_deactivation_always_witness :
    queryOneSub storeSub4Fix.subs "argo_uuid" "sub4" = some sub4Fix ∧
    pushActive sub4Fix = true ∧
    pcEmptyFix.pushEndpoint = "" ∧
    ((SubModPush cfgDownFix storeSub4Fix "ARGO" "argo_uuid" "sub4" pcEmptyFix
        false false).1 = .ok 200 .empty ∧
      queryOneSub (SubModPush cfgDownFix storeSub4Fix "ARGO" "argo_uuid" "sub4"
        pcEmptyFix false false).2.subs "argo_uuid" "sub4" =
        some (deactivatedSub sub4Fix (deactivatedText "ARGO" "sub4"))) :=
  ⟨by decide, by decide, by decide,
    claimC6_deactivation_always cfgDownFix storeSub4Fix "ARGO" "argo_uuid" "sub4"
      pcEmptyFix false sub4Fix (by decide) (by decide) (by decide)⟩

/-- C9: deleting a subscription with a non-empty push endpoint answers
200 with a one-field message body carrying the deactivation text (the
not-active text when the remote reports so), while deleting a plain
subscription answers 200 with an empty body; both remove the row. -/
theorem claimC9_delete_response (st : Store) (pName pUUID sName : String)
    (rna : Bool) (sub : QSub)
    (hsub : queryOneSub st.subs pUUID sName = some sub) :
    (sub.pushEndpoint ≠ "" →
      SubDelete st pName pUUID sName rna =
        (.ok 200 (.jsonMsg (if rna then notActiveText pName sName
                            else deactivatedText pName sName)),
          deleteSubStore st pUUID sName)) ∧
    (sub.pushEndpoint = "" →
      SubDelete st pName pUUID sName rna =
        (.ok 200 .empty, deleteSubStore st pUUID sName)) := by
  constructor
  · intro h
    simp [SubDelete, hsub, h]
  · intro h
    simp [SubDelete, hsub, h]



/-- Witness for C9: deleting push-active sub4 yields the message body,
deleting plain sub1 yields the empty body. -/
theorem claimC9_delete_response_witness :
    queryOneSub storeSub4Fix.subs "argo_uuid" "sub4" = some sub4Fix ∧
    sub4Fix.pushEndpoint ≠ "" ∧
    queryOneSub storeSub1Fix.subs "argo_uuid" "sub1" = some sub1AckFix ∧
    sub1AckFix.pushEndpoint = "" ∧
    SubDelete storeSub4Fix "ARGO" "argo_uuid" "sub4" false =
      (.ok 200 (.jsonMsg (deactivatedText "ARGO" "sub4")),
        deleteSubStore storeSub4Fix "argo_uuid" "sub4") ∧
    SubDelete storeSub1Fix "ARGO" "argo_uuid" "sub1" false =
      (.ok 200 .empty, deleteSubStore storeSub1Fix "argo_uuid" "sub1") :=
  ⟨by decide, by decide, by decide, by decide,
    (claimC9_delete_response storeSub4Fix "ARGO" "argo_uuid" "sub4" false sub4Fix
      (by decide)).1 (by decide),
    (claimC9_delete_response storeSub1Fix "ARGO" "argo_uuid" "sub1" false sub1AckFix
      (by decide)).2 (by decide)⟩

end ArgoMsg

namespace ArgoMsg

/-- The admin first page of four subscriptions with pageSize 2 returns
the two newest, cursor 1 (the page token MQ of the tests) and
totalSize 4, as the test suite records. -/
theorem modelCheck_admin_first_page :
    (queryPage subsNamesFix (fun _ => true) none 2).items.map Prod.snd
        = ["sub4", "sub3"] ∧
    (queryPage subsNamesFix (fun _ => true) none 2).nextPageToken = some 1 ∧
    (queryPage subsNamesFix (fun _ => true) none 2).totalSize = 4 := by
  refine ⟨by decide, by decide, by decide⟩

/-- Following cursor 1 with pageSize 2 returns the two oldest and an
empty cursor, and cursor 0 returns only the oldest, as the test suite
records. -/
theorem modelCheck_admin_next_pages :
    (queryPage subsNamesFix (fun _ => true) (some 1) 2).items.map Prod.snd
        = ["sub2", "sub1"] ∧
    (queryPage subsNamesFix (fun _ => true) (some 1) 2).nextPageToken = none ∧
    (queryPage subsNamesFix (fun _ => true) (some 0) 2).items.map Prod.snd
        = ["sub1"] ∧
    (queryPage subsNamesFix (fun _ => true) (some 0) 2).nextPageToken = none := by
  refine ⟨by decide, by decide, by decide, by decide⟩

/-- The consumer first page with pageSize 2 over the fixture ACLs
returns the two newest visible subscriptions, cursor 1 and the
filtered totalSize 3, as the consumer pagination test records. -/
theorem modelCheck_consumer_first_page :
    (listFor consumerFix aclOfFix subsNamesFix none 2).items.map Prod.snd
        = ["sub4", "sub3"] ∧
    (listFor consumerFix aclOfFix subsNamesFix none 2).nextPageToken = some 1 ∧
    (listFor consumerFix aclOfFix subsNamesFix none 2).totalSize = 3 := by
  refine ⟨by decide, by decide, by decide⟩

/-- A publisher seeing only the two oldest topics and asking pageSize 1
receives the newest visible topic, cursor 0 and totalSize 2, as the
publisher pagination test records. -/
theorem modelCheck_publisher_page :
    (queryPage topicsFix (fun t => t == "topic1" || t == "topic2") none 1).items.map
        Prod.snd = ["topic2"] ∧
    (queryPage topicsFix (fun t => t == "topic1" || t == "topic2") none 1).nextPageToken
        = some 0 ∧
    (queryPage topicsFix (fun t => t == "topic1" || t == "topic2") none 1).totalSize
        = 2 := by
  refine ⟨by decide, by decide, by decide⟩

end ArgoMsg
